import Mathlib

/-!
Verification development for the kplayer audio stream gateway.

The definitions below are a shallow embedding of the gateway server
(`src/unnamed/part_000`, the current server with the `cachingJobs`
registry) and its storage layer
(`src/apps/audio-stream-gateway/src/storage/r2Storage.js`).

JavaScript `Map` objects and the JSON track index are modelled as
association lists with unique keys; the R2 object store is modelled as
the list of keys currently present.  Optional / nullable JavaScript
fields are modelled with `Option` (`none` stands for `undefined` or
`null`; where the distinction matters, for track-metadata patches, a
double `Option` separates an absent field from an explicit `null`).
-/

namespace KPlayer

/-! ## Association-list helpers (JS `Map` / JSON object semantics) -/

/-- Lookup in an association list, mirroring `map.get(k)` / `index[k]`. -/
def lookupKey (k : String) : List (String × α) → Option α
  | [] => none
  | (k', v) :: t => if k' = k then some v else lookupKey k t

/-- Insert-or-replace, mirroring `map.set(k, v)` / `index[k] = v`. -/
def insertKey (k : String) (v : α) : List (String × α) → List (String × α)
  | [] => [(k, v)]
  | (k', v') :: t => if k' = k then (k, v) :: t else (k', v') :: insertKey k v t

/-- Deletion, mirroring `map.delete(k)` / `delete index[k]`. -/
def eraseKey (k : String) : List (String × α) → List (String × α)
  | [] => []
  | (k', v) :: t => if k' = k then t else (k', v) :: eraseKey k t

/-- In-place mutation of the entry at `k` when present, mirroring
`const v = map.get(k); if (v) mutate(v)`. -/
def updateKey (k : String) (f : α → α) : List (String × α) → List (String × α)
  | [] => []
  | (k', v) :: t => if k' = k then (k', f v) :: t else (k', v) :: updateKey k f t

/-- Keys are pairwise distinct - the structural invariant a JS `Map`
or JSON object provides for free. -/
def keysNodup (l : List (String × α)) : Prop := (l.map Prod.fst).Nodup

theorem map_fst_insertKey (k : String) (v : α) (l : List (String × α)) :
    (insertKey k v l).map Prod.fst ⊆ k :: l.map Prod.fst := by
  induction l with
  | nil => simp [insertKey]
  | cons hd t ih =>
    obtain ⟨k', v'⟩ := hd
    by_cases hk : k' = k
    · subst hk
      simp [insertKey]
    · simp only [insertKey, if_neg hk, List.map_cons]
      intro x hx
      simp only [List.mem_cons] at hx ⊢
      rcases hx with hx | hx
      · exact Or.inr (Or.inl hx)
      · rcases List.mem_cons.mp (ih hx) with hx' | hx'
        · exact Or.inl hx'
        · exact Or.inr (Or.inr hx')

theorem map_fst_eraseKey (k : String) (l : List (String × α)) :
    (eraseKey k l).map Prod.fst ⊆ l.map Prod.fst := by
  induction l with
  | nil => simp [eraseKey]
  | cons hd t ih =>
    obtain ⟨k', v'⟩ := hd
    by_cases hk : k' = k
    · simp only [eraseKey, if_pos hk, List.map_cons]
      exact List.subset_cons_self _ _
    · simp only [eraseKey, if_neg hk, List.map_cons]
      exact List.cons_subset_cons _ ih

theorem map_fst_updateKey (k : String) (f : α → α) (l : List (String × α)) :
    (updateKey k f l).map Prod.fst = l.map Prod.fst := by
  induction l with
  | nil => simp [updateKey]
  | cons hd t ih =>
    obtain ⟨k', v'⟩ := hd
    by_cases hk : k' = k
    · simp [updateKey, hk]
    · simp [updateKey, hk, ih]

theorem lookupKey_insertKey_self (k : String) (v : α) (l : List (String × α)) :
    lookupKey k (insertKey k v l) = some v := by
  induction l with
  | nil => simp [insertKey, lookupKey]
  | cons h t ih =>
    obtain ⟨k', v'⟩ := h
    by_cases hk : k' = k
    · simp [insertKey, hk, lookupKey]
    · simp [insertKey, hk, lookupKey, ih]

theorem lookupKey_insertKey_ne (k k' : String) (v : α) (l : List (String × α))
    (h : k' ≠ k) : lookupKey k' (insertKey k v l) = lookupKey k' l := by
  have hne : k ≠ k' := Ne.symm h
  induction l with
  | nil => simp [insertKey, lookupKey, if_neg hne]
  | cons hd t ih =>
    obtain ⟨k'', v''⟩ := hd
    by_cases hk : k'' = k
    · subst hk
      simp [insertKey, lookupKey, if_neg hne]
    · simp [insertKey, if_neg hk, lookupKey, ih]

theorem lookupKey_eq_none_of_not_mem_keys (k : String) (l : List (String × α))
    (h : k ∉ l.map Prod.fst) : lookupKey k l = none := by
  induction l with
  | nil => simp [lookupKey]
  | cons hd t ih =>
    obtain ⟨k', v'⟩ := hd
    simp only [List.map_cons, List.mem_cons, not_or] at h
    have hk : k' ≠ k := Ne.symm h.1
    simp only [lookupKey, if_neg hk]
    exact ih h.2

theorem lookupKey_eraseKey_self (k : String) (l : List (String × α))
    (h : keysNodup l) : lookupKey k (eraseKey k l) = none := by
  induction l with
  | nil => simp [eraseKey, lookupKey]
  | cons hd t ih =>
    obtain ⟨k', v⟩ := hd
    simp only [keysNodup, List.map_cons, List.nodup_cons] at h
    by_cases hk : k' = k
    · subst hk
      simp only [eraseKey, if_pos rfl]
      exact lookupKey_eq_none_of_not_mem_keys _ _ h.1
    · simp only [eraseKey, if_neg hk, lookupKey, if_neg hk]
      exact ih h.2

theorem lookupKey_eraseKey_ne (k k' : String) (l : List (String × α))
    (h : k' ≠ k) : lookupKey k' (eraseKey k l) = lookupKey k' l := by
  induction l with
  | nil => simp [eraseKey, lookupKey]
  | cons hd t ih =>
    obtain ⟨k'', v''⟩ := hd
    by_cases hk : k'' = k
    · subst hk
      have hne : k'' ≠ k' := Ne.symm h
      simp [eraseKey, lookupKey, if_neg hne]
    · simp [eraseKey, if_neg hk, lookupKey, ih]

theorem keysNodup_insertKey (k : String) (v : α) (l : List (String × α))
    (h : keysNodup l) : keysNodup (insertKey k v l) := by
  induction l with
  | nil => simp [insertKey, keysNodup]
  | cons hd t ih =>
    obtain ⟨k', v'⟩ := hd
    simp only [keysNodup, List.map_cons, List.nodup_cons] at h
    by_cases hk : k' = k
    · subst hk
      simp only [insertKey, if_pos]
      simp only [keysNodup, List.map_cons, List.nodup_cons]
      exact h
    · have ht := ih h.2
      simp only [insertKey, if_neg hk, keysNodup, List.map_cons, List.nodup_cons]
      refine ⟨?_, ht⟩
      intro hm
      rcases List.mem_cons.mp (map_fst_insertKey k v t hm) with hm' | hm'
      · exact hk hm'
      · exact h.1 hm'

theorem keysNodup_eraseKey (k : String) (l : List (String × α))
    (h : keysNodup l) : keysNodup (eraseKey k l) := by
  induction l with
  | nil => simp [eraseKey, keysNodup]
  | cons hd t ih =>
    obtain ⟨k', v'⟩ := hd
    simp only [keysNodup, List.map_cons, List.nodup_cons] at h
    by_cases hk : k' = k
    · simp only [eraseKey, if_pos hk]
      exact h.2
    · simp only [eraseKey, if_neg hk, keysNodup, List.map_cons, List.nodup_cons]
      exact ⟨fun hm => h.1 (map_fst_eraseKey k t hm), ih h.2⟩

theorem lookupKey_updateKey_self (k : String) (f : α → α) (l : List (String × α))
    (v : α) (h : lookupKey k l = some v) :
    lookupKey k (updateKey k f l) = some (f v) := by
  induction l with
  | nil => simp [lookupKey] at h
  | cons hd t ih =>
    obtain ⟨k', v'⟩ := hd
    by_cases hk : k' = k
    · simp only [lookupKey, if_pos hk] at h
      cases h
      simp [updateKey, hk, lookupKey]
    · simp only [lookupKey, if_neg hk] at h
      simp [updateKey, hk, lookupKey, ih h]

theorem keysNodup_updateKey (k : String) (f : α → α) (l : List (String × α))
    (h : keysNodup l) : keysNodup (updateKey k f l) := by
  simpa [keysNodup, map_fst_updateKey] using h

/-! ## Content-id parsing (`getVideoId`, `src/unnamed/part_000` lines 144-161,
identical to `src/apps/audio-stream-gateway/src/server.js` lines 141-158) -/

/-- A character of the id alphabet `[a-zA-Z0-9_-]`. -/
def isIdChar (c : Char) : Bool :=
  (('a' ≤ c && c ≤ 'z') || ('A' ≤ c && c ≤ 'Z') || ('0' ≤ c && c ≤ '9')
    || c = '_' || c = '-')

/-- Does the char list contain a run of 11 consecutive id characters - the
JS test `candidate.match(/[a-zA-Z0-9_-]{11}/)` viewed as a Boolean. -/
def hasRun11 : List Char → Bool
  | [] => false
  | c :: t =>
    (decide (11 ≤ (c :: t).length) && ((c :: t).take 11).all isIdChar) || hasRun11 t

/-- Does `pat` occur at the very front of `cs`. -/
def listStarts (pat cs : List Char) : Bool := pat = cs.take pat.length

/-- Leftmost match of `/[?&]v=([a-zA-Z0-9_-]{11})/`: scan left to right for
a `?` or `&` followed by the literal `v=` and 11 id characters, returning
the captured group; a position where the pattern fails moves the scan one
character to the right, exactly like the regex engine. -/
def matchVParam : List Char → Option (List Char)
  | [] => none
  | c :: rest =>
    if (c == '?' || c == '&') && listStarts ['v', '='] rest
        && decide (11 ≤ (rest.drop 2).length) && ((rest.drop 2).take 11).all isIdChar then
      some ((rest.drop 2).take 11)
    else
      matchVParam rest

/-- The literal `youtu.be/` of the share-link pattern. -/
def shareLit : List Char := ['y', 'o', 'u', 't', 'u', '.', 'b', 'e', '/']

/-- Leftmost match of `/youtu\.be\/([a-zA-Z0-9_-]{11})/`: scan for the
literal `youtu.be/` followed by 11 id characters. -/
def matchShareLink : List Char → Option (List Char)
  | [] => none
  | c :: rest =>
    if listStarts shareLit (c :: rest) && decide (11 ≤ ((c :: rest).drop 9).length)
        && (((c :: rest).drop 9).take 11).all isIdChar then
      some (((c :: rest).drop 9).take 11)
    else
      matchShareLink rest

/-- Faithful model of `getVideoId(candidate)`: a bare 11-character id is
accepted as-is; otherwise the watch-URL `v=` query parameter and the
`youtu.be/` share-link patterns are tried in order; anything else is
rejected (`null`).  The source has no `/shorts/` pattern - that pattern
exists only in the mobile client's `extractVideoId`. -/
def getVideoId (candidate : String) : Option String :=
  if candidate.length == 11 && hasRun11 candidate.data then
    some candidate
  else
    match matchVParam candidate.data with
    | some captured => some (String.mk captured)
    | none =>
      match matchShareLink candidate.data with
      | some captured => some (String.mk captured)
      | none => none

/-! ## Object-key construction (`slugifyTitle` / `buildObjectKey`,
`src/unnamed/part_000` lines 163-176) -/

/-- Lowercase character in `[a-z0-9]`, the slug alphabet. -/
def isSlugChar (c : Char) : Bool :=
  ('a' ≤ c && c ≤ 'z') || ('0' ≤ c && c ≤ '9')

/-- Replace each maximal run of non-slug characters with a single dash -
the JS `.replace(/[^a-z0-9]+/g, '-')`.  The Boolean argument records
whether the scanner is currently inside such a run. -/
def collapseRunsAux : Bool → List Char → List Char
  | _, [] => []
  | inRun, c :: t =>
    if isSlugChar c then c :: collapseRunsAux false t
    else if inRun then collapseRunsAux true t
    else '-' :: collapseRunsAux true t

def collapseRuns (cs : List Char) : List Char := collapseRunsAux false cs

/-- Remove a single leading dash, mirroring the `^-` alternative of
`.replace(/(^-|-$)/g, '')`. -/
def dropLeadDash : List Char → List Char
  | '-' :: t => t
  | cs => cs

/-- Remove a single trailing dash, mirroring the `-$` alternative. -/
def dropTrailDash (cs : List Char) : List Char :=
  match cs.reverse with
  | '-' :: t => t.reverse
  | _ => cs

/-- Faithful model of `slugifyTitle(title, fallback)`. -/
def slugifyTitle (title fallback : String) : String :=
  let normalized :=
    String.mk ((dropTrailDash (dropLeadDash (collapseRuns
      (title.data.map Char.toLower)))).take 60)
  if normalized = "" then fallback else normalized

/-- Faithful model of `buildObjectKey(title, videoId)`. -/
def buildObjectKey (title videoId : String) : String :=
  "audio/" ++ slugifyTitle title videoId ++ "-" ++ videoId ++ ".mp3"

/-- The deterministic default storage key `audio/<videoId>.mp3` used as the
fallback existence check in the stream route. -/
def defaultKey (videoId : String) : String := "audio/" ++ videoId ++ ".mp3"

example : getVideoId "dQw4w9WgXcQ" = some "dQw4w9WgXcQ" := by decide
example : getVideoId "https://www.youtube.com/watch?v=dQw4w9WgXcQ" = some "dQw4w9WgXcQ" := by decide
example : getVideoId "https://youtu.be/dQw4w9WgXcQ" = some "dQw4w9WgXcQ" := by decide
example : getVideoId "https://www.youtube.com/shorts/dQw4w9WgXcQ" = none := by decide
example : getVideoId "not-an-id" = none := by decide
example : buildObjectKey "dQw4w9WgXcQ" "dQw4w9WgXcQ" = "audio/dqw4w9wgxcq-dQw4w9WgXcQ.mp3" := by decide

/-! ## Data model

A `TrackRecord` models one entry of the `metadata/tracks.json` index.  All
fields other than `videoId` are `Option`-typed: `none` stands for a field
that is absent from the JSON object (`undefined`), which is what the JS
spread-merge in `saveTrackMetadata` distinguishes from a present field.
`durationSeconds` and `thumbnailUrl` are nullable when present, hence the
inner `Option`. -/
structure TrackRecord where
  videoId : String
  storageKey : Option String
  title : Option String
  author : Option String
  durationSeconds : Option (Option Int)
  thumbnailUrl : Option (Option String)
  createdAt : Option String
  updatedAt : Option String
deriving DecidableEq, Repr

/-- A record with every optional field absent - the shape `{...undefined}`
contributes in a JS object spread. -/
def emptyRecord (vid : String) : TrackRecord :=
  ⟨vid, none, none, none, none, none, none, none⟩

/-- One entry of the in-memory `cachingJobs` map
(`src/unnamed/part_000` line 341): `{ startTime: Date.now(), cacheKey }`,
with an `error` field attached later by the failure handlers. -/
structure CacheJob where
  startTime : Nat
  cacheKey : String
  error : Option String
deriving DecidableEq, Repr

/-- One entry of `metadata/groups.json`.  Groups are only ever created and
updated with a concrete `trackIds` array (`POST /groups` sanitizes it to
`[]`, `PUT /groups` only replaces it with arrays), so the field is a plain
list. -/
structure Group where
  id : String
  name : String
  trackIds : List String
  createdAt : String
  updatedAt : String
deriving DecidableEq, Repr

/-- The observable state of the gateway: the set of object keys present in
the R2 bucket, the two JSON indexes, and the process-local `cachingJobs`
registry. -/
structure GatewayState where
  store : List String
  tracksIndex : List (String × TrackRecord)
  cachingJobs : List (String × CacheJob)
  groups : List Group
deriving DecidableEq, Repr

/-! ## The cache-hit check of `GET /stream/:videoId`
(`src/unnamed/part_000` lines 284-296) -/

/-- The existence check sequence of the stream route: take the record's
`storageKey` when the record exists and the key is truthy and the object
exists under it; otherwise fall back to the deterministic default key
`audio/<videoId>.mp3`.  Returns the key served from, or `none` on a miss.
`checkFileExists` (r2Storage.js lines 64-84) maps 404/NotFound/NoSuchKey
to `false`, i.e. it reports exactly membership in the bucket. -/
def recordKeyOf (index : List (String × TrackRecord)) (videoId : String) : String :=
  match lookupKey videoId index with
  | some record => record.storageKey.getD ""
  | none => ""

def streamLookup (store : List String) (index : List (String × TrackRecord))
    (videoId : String) : Option String :=
  if recordKeyOf index videoId ≠ "" ∧ recordKeyOf index videoId ∈ store then
    some (recordKeyOf index videoId)
  else if defaultKey videoId ∈ store then
    some (defaultKey videoId)
  else
    none

/-! ## The stream route (`src/unnamed/part_000` lines 276-349)

Every response of this route is produced by `res.json`, so each carries
status and an `application/json` body; the hit response body is
`{cached:true, url:signedUrl, videoId, metadata}` where the URL is a
time-limited signed URL for the served storage key (`getSignedFileUrl`,
an external presigner call, is identified here by the key it signs). -/
inductive StreamResponse where
  | badRequest
  | hitResponse (servedKey : String) (metadata : Option TrackRecord)
  | missFailed (error : String)
  | missInProgress
  | missStarted
deriving DecidableEq, Repr

/-- HTTP status of each stream-route response. -/
def statusOf : StreamResponse → Nat
  | .badRequest => 400
  | .hitResponse _ _ => 200
  | .missFailed _ => 500
  | .missInProgress => 202
  | .missStarted => 202

/-- Content type of each stream-route response: every branch of the route
ends in `res.json(...)`, which serves `application/json`. -/
def contentTypeOf : StreamResponse → String
  | _ => "application/json"

/-- The `caching` field of the JSON body, when present. -/
def cachingFlagOf : StreamResponse → Option Bool
  | .badRequest => none
  | .hitResponse _ _ => none
  | .missFailed _ => some false
  | .missInProgress => some true
  | .missStarted => some true

/-- The `error` field of the JSON body, when present. -/
def errorFieldOf : StreamResponse → Option String
  | .missFailed e => some e
  | _ => none

/-- Faithful model of the `GET /stream/:videoId` handler of
`src/unnamed/part_000`:
1. parse the id (400 on failure);
2. run the cache-hit check (200 with a signed URL on a hit);
3. otherwise consult `cachingJobs`: an entry carrying an error is removed
   and surfaced as a 500 without starting a new job; an error-free entry
   yields 202 in-progress; no entry registers a fresh job (with
   `cacheKey = buildObjectKey(videoId, videoId)`) and yields 202 started.
The check-and-set on `cachingJobs` contains no `await`, so on the
single-threaded event loop it executes atomically with respect to
concurrent requests; the model therefore treats it as one step. -/
def streamRoute (s : GatewayState) (rawVideoId : String) (now : Nat) :
    StreamResponse × GatewayState :=
  match getVideoId rawVideoId with
  | none => (.badRequest, s)
  | some videoId =>
    match streamLookup s.store s.tracksIndex videoId with
    | some servedKey => (.hitResponse servedKey (lookupKey videoId s.tracksIndex), s)
    | none =>
      match lookupKey videoId s.cachingJobs with
      | some job =>
        match job.error with
        | some e =>
          (.missFailed e, { s with cachingJobs := eraseKey videoId s.cachingJobs })
        | none => (.missInProgress, s)
      | none =>
        let objectKey := buildObjectKey videoId videoId
        (.missStarted,
          { s with cachingJobs :=
              insertKey videoId ⟨now, objectKey, none⟩ s.cachingJobs })

/-- Repeat `streamRoute` on the same raw id, threading the state - the
sequence of atomic registry steps performed by a burst of concurrent
requests for one id. -/
def runResolves (s : GatewayState) (rawVideoId : String) (now : Nat) :
    Nat → List StreamResponse × GatewayState
  | 0 => ([], s)
  | n + 1 =>
    let (r, s') := streamRoute s rawVideoId now
    let (rs, s'') := runResolves s' rawVideoId now n
    (r :: rs, s'')

/-! ## Track metadata persistence (`saveTrackMetadata`,
`src/apps/audio-stream-gateway/src/storage/r2Storage.js` lines 118-132) -/

/-- The JS object spread `{...existing, ...metadata}` with the explicit
overrides `createdAt: existing?.createdAt ?? metadata.createdAt` and
`updatedAt: new Date().toISOString()`: a field present in the patch wins,
an absent patch field keeps the existing value, `createdAt` prefers the
existing record's value, and `updatedAt` is always the save time. -/
def spreadMerge (ex patch : TrackRecord) (now : String) : TrackRecord :=
  { videoId := patch.videoId
    storageKey := patch.storageKey <|> ex.storageKey
    title := patch.title <|> ex.title
    author := patch.author <|> ex.author
    durationSeconds := patch.durationSeconds <|> ex.durationSeconds
    thumbnailUrl := patch.thumbnailUrl <|> ex.thumbnailUrl
    createdAt := ex.createdAt <|> patch.createdAt
    updatedAt := some now }

/-- Faithful model of `saveTrackMetadata(metadata)`: read the index, merge
the patch over any existing record for the same `videoId`, write the whole
index back.  When no record exists the merge base is the empty record, so
the merge degenerates to the patch itself (plus `updatedAt`). -/
def saveTrackMetadata (index : List (String × TrackRecord)) (patch : TrackRecord)
    (now : String) : List (String × TrackRecord) :=
  let ex := (lookupKey patch.videoId index).getD (emptyRecord patch.videoId)
  insertKey patch.videoId (spreadMerge ex patch now) index

/-! ## Track deletion (`deleteTrack`, r2Storage.js lines 158-197) -/

/-- Faithful model of `deleteTrack(videoId)`: no record means `false` with
nothing touched; otherwise the object under the record's (truthy)
`storageKey` is deleted from the bucket (a 404/NoSuchKey from the delete
is swallowed, which the total `List.erase` models exactly), the record is
removed from the index, every group whose `trackIds` shrinks under the
filter gets the filtered list and a fresh `updatedAt`, and the result is
`true`. -/
def deleteTrack (s : GatewayState) (videoId : String) (now : String) :
    Bool × GatewayState :=
  match lookupKey videoId s.tracksIndex with
  | none => (false, s)
  | some metadata =>
    let store' :=
      match metadata.storageKey with
      | some key => if key = "" then s.store else s.store.erase key
      | none => s.store
    let index' := eraseKey videoId s.tracksIndex
    let groups' := s.groups.map (fun g =>
      let filteredIds := g.trackIds.filter (fun id => id ≠ videoId)
      if filteredIds.length ≠ g.trackIds.length then
        { g with trackIds := filteredIds, updatedAt := now }
      else g)
    (true, { store := store', tracksIndex := index', cachingJobs := s.cachingJobs,
             groups := groups' })

/-! ## The background caching pipeline (`src/unnamed/part_000` lines 352-461)

The pipeline launched for a cache miss runs several asynchronous branches:
the yt-dlp fetch subprocess, the ffmpeg transcoder, the metadata lookup,
and the R2 upload.  Each observable completion or failure of a branch is
one event; the handlers below mirror the corresponding JS callbacks.  The
two local flags of the pipeline closure (`hasError`, and whether
`ytDlp.kill` was invoked) are carried alongside the gateway state. -/

/-- The fields of the yt-dlp metadata JSON used by the success handler. -/
structure VideoInfo where
  title : Option String
  uploader : Option String
  channel : Option String
  duration : Option Int
  thumbnail : Option String
  lastThumbnailUrl : Option String
deriving DecidableEq, Repr

/-- The metadata payload written on successful lookup
(lines 423-431): every field is present, with `?? ` fallbacks applied and
`durationSeconds`/`thumbnailUrl` possibly null. -/
def metadataPayload (videoId cacheKey : String) (info : VideoInfo)
    (now : String) : TrackRecord :=
  { videoId := videoId
    storageKey := some cacheKey
    title := some (info.title.getD videoId)
    author := some ((info.uploader <|> info.channel).getD "Unknown artist")
    durationSeconds := some info.duration
    thumbnailUrl := some (info.thumbnail <|> info.lastThumbnailUrl)
    createdAt := some now
    updatedAt := none }

/-- The minimal fallback payload written when the metadata lookup fails
(lines 438-446). -/
def fallbackPayload (videoId cacheKey : String) (now : String) : TrackRecord :=
  { videoId := videoId
    storageKey := some cacheKey
    title := some videoId
    author := some "Unknown"
    durationSeconds := some none
    thumbnailUrl := some none
    createdAt := some now
    updatedAt := none }

/-- Substring test, the JS `haystack.includes(needle)`. -/
def hasSub (haystack needle : List Char) : Bool :=
  match haystack with
  | [] => needle.isEmpty
  | _ :: t => listStarts needle haystack || hasSub t needle

/-- Observable events of one caching job's asynchronous branches. -/
inductive JobEvent where
  | spawnFailed (message : String)
  | fetchExit (code : Int)
  | transcodeFailed (message : String)
  | metadataOk (info : VideoInfo) (now : String)
  | metadataFailed (now : String)
  | uploadOk
  | uploadFailed (message : String)
deriving DecidableEq, Repr

/-- Gateway state plus the pipeline-local flags: `hasError` (the closure
variable guarding the exit-code handler) and `fetchKilled` (whether
`ytDlp.kill('SIGKILL')` has been invoked). -/
structure PipelineState where
  gw : GatewayState
  hasError : Bool
  fetchKilled : Bool
deriving DecidableEq, Repr

/-- One event handler of the caching pipeline for job `videoId` with
object key `cacheKey`, mirroring the JS callbacks line by line:
* `spawnFailed` (lines 372-379): set `hasError`, record the error on the
  job when the registry still holds it;
* `fetchExit` (lines 381-390): only a non-zero code with `hasError` still
  unset records an error;
* `transcodeFailed` (lines 392-410): a message containing
  `Output stream closed` is benign and changes nothing; any other message
  records an error and kills the fetch subprocess;
* `metadataOk` / `metadataFailed` (lines 418-447): write the full or the
  fallback metadata payload through `saveTrackMetadata`;
* `uploadOk` (lines 450-453): the object becomes durable under `cacheKey`
  and the job entry is removed - the Completed state;
* `uploadFailed` (lines 454-460): record the error on the job.
The shared shape of the JS failure handlers is
`const job = cachingJobs.get(videoId); if (job) job.error = msg;`,
factored out as `setJobError` just below. -/
def setJobError (videoId message : String) (jobs : List (String × CacheJob)) :
    List (String × CacheJob) :=
  updateKey videoId (fun j => { j with error := some message }) jobs

def cachePipelineStep (videoId cacheKey : String) (p : PipelineState) :
    JobEvent → PipelineState
  | .spawnFailed message =>
    let jobs' := setJobError videoId ("Failed to start download: " ++ message) p.gw.cachingJobs
    { p with hasError := true, gw := { p.gw with cachingJobs := jobs' } }
  | .fetchExit code =>
    if code ≠ 0 ∧ p.hasError = false then
      let jobs' := setJobError videoId ("Download failed with exit code " ++ toString code) p.gw.cachingJobs
      { p with hasError := true, gw := { p.gw with cachingJobs := jobs' } }
    else p
  | .transcodeFailed message =>
    if hasSub message.data "Output stream closed".data then p
    else
      let jobs' := setJobError videoId ("Audio conversion failed: " ++ message) p.gw.cachingJobs
      { gw := { p.gw with cachingJobs := jobs' }, hasError := true, fetchKilled := true }
  | .metadataOk info now =>
    let index' := saveTrackMetadata p.gw.tracksIndex (metadataPayload videoId cacheKey info now) now
    { p with gw := { p.gw with tracksIndex := index' } }
  | .metadataFailed now =>
    let index' := saveTrackMetadata p.gw.tracksIndex (fallbackPayload videoId cacheKey now) now
    { p with gw := { p.gw with tracksIndex := index' } }
  | .uploadOk =>
    { p with gw := { p.gw with store := cacheKey :: p.gw.store, cachingJobs := eraseKey videoId p.gw.cachingJobs } }
  | .uploadFailed message =>
    let jobs' := setJobError videoId ("Storage upload failed: " ++ message) p.gw.cachingJobs
    { p with gw := { p.gw with cachingJobs := jobs' } }

/-- Run a sequence of pipeline events. -/
def runCacheJob (videoId cacheKey : String) (p : PipelineState) :
    List JobEvent → PipelineState
  | [] => p
  | e :: es => runCacheJob videoId cacheKey (cachePipelineStep videoId cacheKey p e) es

/-- Whether an event settles the metadata branch. -/
def isMetadataEvent : JobEvent → Bool
  | .metadataOk _ _ => true
  | .metadataFailed _ => true
  | _ => false

/-! ## Lemmas about the id matchers -/

theorem hasRun11_of_all (cs : List Char) (hlen : cs.length = 11)
    (hall : cs.all isIdChar = true) : hasRun11 cs = true := by
  cases cs with
  | nil => simp at hlen
  | cons c t =>
    have htake : (c :: t).take 11 = c :: t := List.take_of_length_le (by rw [hlen])
    simp [hasRun11, hlen, htake, hall]

theorem hasRun11_short (cs : List Char) (h : cs.length < 11) :
    hasRun11 cs = false := by
  induction cs with
  | nil => simp [hasRun11]
  | cons c t ih =>
    have ht : t.length < 11 := Nat.lt_of_succ_lt (by simpa using h)
    have hd : decide (11 ≤ (c :: t).length) = false := by
      simp only [decide_eq_false_iff_not]
      omega
    show (decide (11 ≤ (c :: t).length) && ((c :: t).take 11).all isIdChar
      || hasRun11 t) = false
    rw [hd, ih ht]
    simp

theorem hasRun11_all_of_len11 (cs : List Char) (hlen : cs.length = 11)
    (h : hasRun11 cs = true) : cs.all isIdChar = true := by
  cases cs with
  | nil => simp at hlen
  | cons c t =>
    have ht : t.length < 11 := by simp at hlen; omega
    have htake : (c :: t).take 11 = c :: t := List.take_of_length_le (by rw [hlen])
    simp [hasRun11, hlen, htake, hasRun11_short t ht] at h
    simpa using h

theorem matchVParam_skip (c : Char) (cs : List Char)
    (h : (c == '?' || c == '&') = false) :
    matchVParam (c :: cs) = matchVParam cs := by
  simp [matchVParam, h]

theorem matchVParam_append_skip (pre cs : List Char)
    (h : pre.all (fun c => !(c == '?' || c == '&')) = true) :
    matchVParam (pre ++ cs) = matchVParam cs := by
  induction pre with
  | nil => simp
  | cons c t ih =>
    simp only [List.all_cons, Bool.and_eq_true, Bool.not_eq_true'] at h
    rw [List.cons_append, matchVParam_skip c _ h.1, ih h.2]

theorem matchVParam_none (cs : List Char)
    (h : cs.all (fun c => !(c == '?' || c == '&')) = true) :
    matchVParam cs = none := by
  have := matchVParam_append_skip cs [] h
  simpa using this

theorem matchVParam_sound (cs r : List Char) (h : matchVParam cs = some r) :
    r.length = 11 ∧ r.all isIdChar = true := by
  induction cs with
  | nil => simp [matchVParam] at h
  | cons c t ih =>
    by_cases hc : ((c == '?' || c == '&') && listStarts ['v', '='] t
        && decide (11 ≤ (t.drop 2).length) && ((t.drop 2).take 11).all isIdChar) = true
    · simp only [matchVParam, if_pos hc, Option.some.injEq] at h
      subst h
      simp only [Bool.and_eq_true, decide_eq_true_eq] at hc
      refine ⟨?_, hc.2⟩
      rw [List.length_take]
      omega
    · rw [matchVParam, if_neg hc] at h
      exact ih h

theorem matchShareLink_skip (c : Char) (cs : List Char) (h : (c == 'y') = false) :
    matchShareLink (c :: cs) = matchShareLink cs := by
  have hs : listStarts shareLit (c :: cs) = false := by
    simp only [listStarts, shareLit, List.take_succ_cons, decide_eq_false_iff_not]
    intro hcontra
    have : 'y' = c := (List.cons_eq_cons.mp hcontra).1
    simp [← this] at h
  simp [matchShareLink, hs]

theorem matchShareLink_append_skip (pre cs : List Char)
    (h : pre.all (fun c => !(c == 'y')) = true) :
    matchShareLink (pre ++ cs) = matchShareLink cs := by
  induction pre with
  | nil => simp
  | cons c t ih =>
    simp only [List.all_cons, Bool.and_eq_true, Bool.not_eq_true'] at h
    rw [List.cons_append, matchShareLink_skip c _ h.1, ih h.2]

theorem matchShareLink_sound (cs r : List Char) (h : matchShareLink cs = some r) :
    r.length = 11 ∧ r.all isIdChar = true := by
  induction cs with
  | nil => simp [matchShareLink] at h
  | cons c t ih =>
    by_cases hc : (listStarts shareLit (c :: t) && decide (11 ≤ ((c :: t).drop 9).length)
        && (((c :: t).drop 9).take 11).all isIdChar) = true
    · simp only [matchShareLink, if_pos hc, Option.some.injEq] at h
      subst h
      simp only [Bool.and_eq_true, decide_eq_true_eq] at hc
      refine ⟨?_, hc.2⟩
      rw [List.length_take]
      omega
    · rw [matchShareLink, if_neg hc] at h
      exact ih h

theorem matchShareLink_hit (id rest : List Char) (hlen : id.length = 11)
    (hall : id.all isIdChar = true) :
    matchShareLink (shareLit ++ (id ++ rest)) = some id := by
  have hdrop : (shareLit ++ (id ++ rest)).drop 9 = id ++ rest := by
    have : shareLit.length = 9 := by decide
    rw [← this]
    exact List.drop_left shareLit (id ++ rest)
  have htake9 : (shareLit ++ (id ++ rest)).take 9 = shareLit := by
    have : shareLit.length = 9 := by decide
    rw [← this]
    exact List.take_left shareLit (id ++ rest)
  have htake11 : (id ++ rest).take 11 = id := by
    rw [← hlen]
    exact List.take_left id rest
  have hstart : listStarts shareLit (shareLit ++ (id ++ rest)) = true := by
    have hlit : shareLit.length = 9 := by decide
    simp [listStarts, hlit, htake9]
  have hlen2 : 11 ≤ ((shareLit ++ (id ++ rest)).drop 9).length := by
    rw [hdrop, List.length_append, hlen]
    omega
  have hcond : (listStarts shareLit (shareLit ++ (id ++ rest))
      && decide (11 ≤ ((shareLit ++ (id ++ rest)).drop 9).length)
      && (((shareLit ++ (id ++ rest)).drop 9).take 11).all isIdChar) = true := by
    rw [hdrop, htake11]
    rw [hdrop] at hlen2
    simp [hstart, hlen2, hall]
    omega
  cases hsh : shareLit ++ (id ++ rest) with
  | nil => simp [shareLit] at hsh
  | cons c t =>
    rw [hsh] at hcond
    simp only [matchShareLink, if_pos hcond]
    rw [← hsh, hdrop, htake11]

theorem isIdChar_not_mark (c : Char) (h : isIdChar c = true) :
    (c == '?' || c == '&') = false := by
  by_cases h1 : c = '?'
  · subst h1
    simp [isIdChar] at h
  · by_cases h2 : c = '&'
    · subst h2
      simp [isIdChar] at h
    · simp [h1, h2]

theorem matchVParam_hit (id : List Char) (hlen : id.length = 11)
    (hall : id.all isIdChar = true) :
    matchVParam ('?' :: 'v' :: '=' :: id) = some id := by
  have htake11 : id.take 11 = id := List.take_of_length_le (by omega)
  have hcond : (('?' == '?' || '?' == '&') && listStarts ['v', '='] ('v' :: '=' :: id)
      && decide (11 ≤ (('v' :: '=' :: id).drop 2).length)
      && ((('v' :: '=' :: id).drop 2).take 11).all isIdChar) = true := by
    simp [listStarts, htake11, hall]
    omega
  simp only [matchVParam, if_pos hcond]
  simp [htake11]

theorem mk_data_eq (s : String) : String.mk s.data = s := by
  cases s
  rfl

theorem getVideoId_bare (id : String) (hlen : id.data.length = 11)
    (hall : id.data.all isIdChar = true) : getVideoId id = some id := by
  have hlen' : id.length = 11 := hlen
  have hrun : hasRun11 id.data = true := hasRun11_of_all id.data hlen hall
  simp [getVideoId, hlen', hrun]

theorem getVideoId_watch (id : String) (hlen : id.data.length = 11)
    (hall : id.data.all isIdChar = true) :
    getVideoId ("https://www.youtube.com/watch?v=" ++ id) = some id := by
  have hpre : ("https://www.youtube.com/watch?v=").data
      = "https://www.youtube.com/watch".data ++ ['?', 'v', '='] := by decide
  have hdata : ("https://www.youtube.com/watch?v=" ++ id).data
      = "https://www.youtube.com/watch".data ++ ('?' :: 'v' :: '=' :: id.data) := by
    rw [String.data_append, hpre, List.append_assoc]
    rfl
  have hlen32 : ("https://www.youtube.com/watch?v=").length = 32 := by decide
  have hlentot : ("https://www.youtube.com/watch?v=" ++ id).length = 43 := by
    rw [String.length_append, hlen32]
    have : id.length = 11 := hlen
    omega
  have hnomark : ("https://www.youtube.com/watch".data).all
      (fun c => !(c == '?' || c == '&')) = true := by decide
  have hv : matchVParam ("https://www.youtube.com/watch?v=" ++ id).data = some id.data := by
    rw [hdata, matchVParam_append_skip _ _ hnomark]
    exact matchVParam_hit id.data hlen hall
  have hcondf : (("https://www.youtube.com/watch?v=" ++ id).length == 11
      && hasRun11 ("https://www.youtube.com/watch?v=" ++ id).data) = false := by
    rw [hlentot]
    rfl
  unfold getVideoId
  rw [hcondf, hv]
  simp [mk_data_eq]

theorem getVideoId_share (id : String) (hlen : id.data.length = 11)
    (hall : id.data.all isIdChar = true) :
    getVideoId ("https://youtu.be/" ++ id) = some id := by
  have hpre : ("https://youtu.be/").data = "https://".data ++ shareLit := by decide
  have hdata : ("https://youtu.be/" ++ id).data
      = "https://".data ++ (shareLit ++ id.data) := by
    rw [String.data_append, hpre, List.append_assoc]
  have hlentot : ("https://youtu.be/" ++ id).length = 28 := by
    have h17 : ("https://youtu.be/").length = 17 := by decide
    rw [String.length_append, h17]
    have : id.length = 11 := hlen
    omega
  have hidnomark : id.data.all (fun c => !(c == '?' || c == '&')) = true := by
    rw [List.all_eq_true] at hall ⊢
    intro c hc
    rw [Bool.not_eq_true', isIdChar_not_mark c (hall c hc)]
  have hnomark : ("https://youtu.be/" ++ id).data.all
      (fun c => !(c == '?' || c == '&')) = true := by
    rw [String.data_append, List.all_append]
    have hprem : ("https://youtu.be/").data.all (fun c => !(c == '?' || c == '&')) = true := by
      decide
    rw [hprem, hidnomark]
    rfl
  have hvnone : matchVParam ("https://youtu.be/" ++ id).data = none :=
    matchVParam_none _ hnomark
  have hnoy : ("https://".data).all (fun c => !(c == 'y')) = true := by decide
  have hshare : matchShareLink ("https://youtu.be/" ++ id).data = some id.data := by
    rw [hdata, matchShareLink_append_skip _ _ hnoy]
    have := matchShareLink_hit id.data [] hlen hall
    rwa [List.append_nil] at this
  have hcondf : (("https://youtu.be/" ++ id).length == 11
      && hasRun11 ("https://youtu.be/" ++ id).data) = false := by
    rw [hlentot]
    rfl
  unfold getVideoId
  rw [hcondf, hvnone, hshare]
  simp [mk_data_eq]

theorem getVideoId_sound (raw extracted : String)
    (h : getVideoId raw = some extracted) :
    extracted.data.length = 11 ∧ extracted.data.all isIdChar = true := by
  by_cases hb : (raw.length == 11 && hasRun11 raw.data) = true
  · simp only [getVideoId, hb, if_pos] at h
    cases h
    simp only [Bool.and_eq_true] at hb
    have hlen : raw.length = 11 := by simpa using hb.1
    exact ⟨hlen, hasRun11_all_of_len11 raw.data hlen hb.2⟩
  · simp only [getVideoId, hb, if_neg, Bool.not_eq_true] at h
    cases hv : matchVParam raw.data with
    | some captured =>
      rw [hv] at h
      simp only [Option.some.injEq] at h
      subst h
      exact matchVParam_sound raw.data captured hv
    | none =>
      rw [hv] at h
      cases hs : matchShareLink raw.data with
      | some captured =>
        rw [hs] at h
        simp only [Option.some.injEq] at h
        subst h
        exact matchShareLink_sound raw.data captured hs
      | none =>
        rw [hs] at h
        simp at h

/-! ## Claim C7 -/

/-- C7 is refuted at a shorts URL: `getVideoId` has no `/shorts/` pattern
(that pattern exists only in the mobile client), so a shorts link
containing a perfectly good 11-character id is rejected and the stream
route answers 400 instead of extracting the id. -/
theorem C7_shorts_counterexample :
    getVideoId "https://www.youtube.com/shorts/dQw4w9WgXcQ" = none ∧
    getVideoId "https://www.youtube.com/shorts/dQw4w9WgXcQ" ≠ some "dQw4w9WgXcQ" ∧
    (streamRoute ⟨[], [], [], []⟩ "https://www.youtube.com/shorts/dQw4w9WgXcQ" 0).1
      = StreamResponse.badRequest := by
  refine ⟨by decide, by decide, by decide⟩

/-- C7 (amended): `getVideoId` accepts a bare 11-character id, extracts an
11-character id after a watch-URL `v=` query parameter or a `youtu.be/`
short-link segment (but not from a `/shorts/` URL - that pattern exists
only in the mobile client), any extracted result is an 11-character id,
and an input on which it returns null makes the stream route answer
400. -/
theorem C7_content_id_parsing (s : GatewayState) (now : Nat) :
    (∀ id : String, id.data.length = 11 → id.data.all isIdChar = true →
      getVideoId id = some id) ∧
    (∀ id : String, id.data.length = 11 → id.data.all isIdChar = true →
      getVideoId ("https://www.youtube.com/watch?v=" ++ id) = some id) ∧
    (∀ id : String, id.data.length = 11 → id.data.all isIdChar = true →
      getVideoId ("https://youtu.be/" ++ id) = some id) ∧
    (∀ raw extracted : String, getVideoId raw = some extracted →
      extracted.data.length = 11 ∧ extracted.data.all isIdChar = true) ∧
    (∀ raw : String, getVideoId raw = none →
      streamRoute s raw now = (StreamResponse.badRequest, s) ∧
      statusOf (streamRoute s raw now).1 = 400) := by
  refine ⟨getVideoId_bare, getVideoId_watch, getVideoId_share, getVideoId_sound, ?_⟩
  intro raw h
  simp [streamRoute, h, statusOf]

/-- Witness for C7: the amended theorem applied at concrete inputs. -/
theorem C7_content_id_parsing_witness :
    getVideoId "dQw4w9WgXcQ" = some "dQw4w9WgXcQ" ∧
    getVideoId ("https://www.youtube.com/watch?v=" ++ "dQw4w9WgXcQ") = some "dQw4w9WgXcQ" ∧
    getVideoId ("https://youtu.be/" ++ "dQw4w9WgXcQ") = some "dQw4w9WgXcQ" ∧
    streamRoute ⟨[], [], [], []⟩ "x" 0 = (StreamResponse.badRequest, ⟨[], [], [], []⟩) :=
  have T := C7_content_id_parsing ⟨[], [], [], []⟩ 0
  ⟨T.1 "dQw4w9WgXcQ" (by decide) (by decide),
   T.2.1 "dQw4w9WgXcQ" (by decide) (by decide),
   T.2.2.1 "dQw4w9WgXcQ" (by decide) (by decide),
   (T.2.2.2.2 "x" (by decide)).1⟩

/-! ## Claim C2 -/

/-- C2: the stream route's hit check returns a key only when the object is
present in the store at the time of the check; it serves the record's
`storageKey` when that is confirmed, and falls back to the deterministic
default key `audio/<contentId>.mp3` when the record's key is absent or
unconfirmed. -/
theorem C2_hit_only_when_present (store : List String)
    (index : List (String × TrackRecord)) (videoId : String) :
    (∀ k, streamLookup store index videoId = some k → k ∈ store) ∧
    (∀ r k, lookupKey videoId index = some r → r.storageKey = some k → k ≠ "" →
      k ∈ store → streamLookup store index videoId = some k) ∧
    ((∀ r, lookupKey videoId index = some r →
        r.storageKey.getD "" = "" ∨ r.storageKey.getD "" ∉ store) →
      defaultKey videoId ∈ store →
      streamLookup store index videoId = some (defaultKey videoId)) := by
  refine ⟨?_, ?_, ?_⟩
  · intro k h
    unfold streamLookup at h
    split_ifs at h with h1 h2
    · cases h
      exact h1.2
    · cases h
      exact h2
  · intro r k hr hk hne hmem
    have hrk : recordKeyOf index videoId = k := by
      simp [recordKeyOf, hr, hk]
    unfold streamLookup
    rw [hrk, if_pos ⟨hne, hmem⟩]
  · intro hfail hmem
    have hcond : ¬(recordKeyOf index videoId ≠ "" ∧ recordKeyOf index videoId ∈ store) := by
      cases hl : lookupKey videoId index with
      | none =>
        have : recordKeyOf index videoId = "" := by simp [recordKeyOf, hl]
        intro hc
        exact hc.1 this
      | some r =>
        have hrk : recordKeyOf index videoId = r.storageKey.getD "" := by
          simp [recordKeyOf, hl]
        rcases hfail r hl with hd | hd
        · intro hc
          exact hc.1 (hrk.trans hd)
        · intro hc
          exact hd (hrk ▸ hc.2)
    unfold streamLookup
    rw [if_neg hcond, if_pos hmem]

/-- Witness for C2 at a concrete store and index. -/
theorem C2_hit_only_when_present_witness :
    streamLookup ["audio/x.mp3"]
      [("dQw4w9WgXcQ", { emptyRecord "dQw4w9WgXcQ" with storageKey := some "audio/x.mp3" })]
      "dQw4w9WgXcQ" = some "audio/x.mp3" ∧
    "audio/x.mp3" ∈ ["audio/x.mp3"] :=
  have T := C2_hit_only_when_present ["audio/x.mp3"]
    [("dQw4w9WgXcQ", { emptyRecord "dQw4w9WgXcQ" with storageKey := some "audio/x.mp3" })]
    "dQw4w9WgXcQ"
  ⟨T.2.1 { emptyRecord "dQw4w9WgXcQ" with storageKey := some "audio/x.mp3" } "audio/x.mp3"
    (by decide) (by decide) (by decide) (by decide),
   by decide⟩

/-! ## Claim C1 -/

theorem streamRoute_inProgress (s : GatewayState) (raw vid : String) (now : Nat)
    (job : CacheJob)
    (hparse : getVideoId raw = some vid)
    (hmiss : streamLookup s.store s.tracksIndex vid = none)
    (hjob : lookupKey vid s.cachingJobs = some job)
    (hnoerr : job.error = none) :
    streamRoute s raw now = (.missInProgress, s) := by
  simp [streamRoute, hparse, hmiss, hjob, hnoerr]

theorem runResolves_fixpoint (s : GatewayState) (raw : String) (now : Nat) (n : Nat)
    (h : streamRoute s raw now = (.missInProgress, s)) :
    runResolves s raw now n = (List.replicate n .missInProgress, s) := by
  induction n with
  | zero => simp [runResolves]
  | succ n ih => simp [runResolves, h, ih, List.replicate_succ]

theorem count_missStarted_replicate (n : Nat) :
    (List.replicate n StreamResponse.missInProgress).count StreamResponse.missStarted
      = 0 := by
  induction n with
  | zero => rfl
  | succ n ih =>
    rw [List.replicate_succ, List.count_cons_of_ne (by simp), ih]

/-- C1: with no cached object and no registered job, a burst of `n + 1`
registry steps for the same id (the check-and-set section runs without
`await`, hence atomically per request on the event loop) produces exactly
one Miss-Started - the single pipeline launch - while every other request
observes the freshly inserted entry and gets Miss-InProgress; the registry
ends with exactly the one fresh job under that id and with pairwise
distinct keys, and every background pipeline step preserves key
uniqueness, so at most one CacheJob per contentId ever exists. -/
theorem C1_single_flight (s : GatewayState) (raw vid : String) (now : Nat) (n : Nat)
    (hparse : getVideoId raw = some vid)
    (hmiss : streamLookup s.store s.tracksIndex vid = none)
    (hnojob : lookupKey vid s.cachingJobs = none)
    (hnodup : keysNodup s.cachingJobs) :
    (runResolves s raw now (n + 1)).1
      = StreamResponse.missStarted :: List.replicate n StreamResponse.missInProgress ∧
    (runResolves s raw now (n + 1)).1.count StreamResponse.missStarted = 1 ∧
    lookupKey vid (runResolves s raw now (n + 1)).2.cachingJobs
      = some ⟨now, buildObjectKey vid vid, none⟩ ∧
    keysNodup (runResolves s raw now (n + 1)).2.cachingJobs ∧
    (∀ (videoId cacheKey : String) (p : PipelineState) (e : JobEvent),
      keysNodup p.gw.cachingJobs →
      keysNodup (cachePipelineStep videoId cacheKey p e).gw.cachingJobs) := by
  set freshJob : CacheJob := ⟨now, buildObjectKey vid vid, none⟩ with hfresh
  set s1 : GatewayState :=
    { s with cachingJobs := insertKey vid freshJob s.cachingJobs } with hs1
  have hstep1 : streamRoute s raw now = (.missStarted, s1) := by
    simp [streamRoute, hparse, hmiss, hnojob, hs1, hfresh]
  have hlook1 : lookupKey vid s1.cachingJobs = some freshJob := by
    rw [hs1]
    exact lookupKey_insertKey_self vid freshJob s.cachingJobs
  have hfix : streamRoute s1 raw now = (.missInProgress, s1) := by
    refine streamRoute_inProgress s1 raw vid now freshJob hparse ?_ hlook1 rfl
    rw [hs1]
    exact hmiss
  have hrun : runResolves s raw now (n + 1)
      = (StreamResponse.missStarted :: List.replicate n StreamResponse.missInProgress, s1) := by
    simp [runResolves, hstep1, runResolves_fixpoint s1 raw now n hfix]
  refine ⟨by rw [hrun], ?_, ?_, ?_, ?_⟩
  · rw [hrun]
    simp only [List.count_cons_self, count_missStarted_replicate]
  · rw [hrun]
    exact hlook1
  · rw [hrun]
    rw [hs1]
    exact keysNodup_insertKey vid freshJob s.cachingJobs hnodup
  · intro videoId cacheKey p e hnd
    cases e with
    | spawnFailed m =>
      simpa [cachePipelineStep, setJobError] using keysNodup_updateKey videoId _ _ hnd
    | fetchExit code =>
      by_cases hc : code ≠ 0 ∧ p.hasError = false
      · simp only [cachePipelineStep, if_pos hc, setJobError]
        exact keysNodup_updateKey videoId _ _ hnd
      · simp only [cachePipelineStep, if_neg hc]
        exact hnd
    | transcodeFailed m =>
      cases hc : hasSub m.data "Output stream closed".data with
      | true => simpa [cachePipelineStep, hc] using hnd
      | false =>
        simpa [cachePipelineStep, hc, setJobError] using
          keysNodup_updateKey videoId _ _ hnd
    | metadataOk info t => simpa [cachePipelineStep] using hnd
    | metadataFailed t => simpa [cachePipelineStep] using hnd
    | uploadOk =>
      simpa [cachePipelineStep] using keysNodup_eraseKey videoId _ hnd
    | uploadFailed m =>
      simpa [cachePipelineStep, setJobError] using keysNodup_updateKey videoId _ _ hnd

/-- Witness for C1: three concurrent resolves for a fresh id launch
exactly one job. -/
theorem C1_single_flight_witness :
    (runResolves ⟨[], [], [], []⟩ "dQw4w9WgXcQ" 7 3).1
      = [StreamResponse.missStarted, StreamResponse.missInProgress,
         StreamResponse.missInProgress] ∧
    (runResolves ⟨[], [], [], []⟩ "dQw4w9WgXcQ" 7 3).1.count StreamResponse.missStarted = 1 :=
  have T := C1_single_flight ⟨[], [], [], []⟩ "dQw4w9WgXcQ" "dQw4w9WgXcQ" 7 2
    (by decide) (by decide) (by decide) (by simp [keysNodup])
  ⟨T.1, T.2.1⟩

/-! ## Claim C3 -/

/-- C3: a resolve that finds a failed job returns the stored error as a
500 exactly once, removing the entry without inserting a new one; the
following resolve finds no entry (and still no object) and registers a
fresh job. -/
theorem C3_failed_job_cleared (s : GatewayState) (raw vid : String)
    (now now2 : Nat) (job : CacheJob) (e : String)
    (hparse : getVideoId raw = some vid)
    (hmiss : streamLookup s.store s.tracksIndex vid = none)
    (hjob : lookupKey vid s.cachingJobs = some job)
    (herr : job.error = some e)
    (hnodup : keysNodup s.cachingJobs) :
    streamRoute s raw now
      = (.missFailed e, { s with cachingJobs := eraseKey vid s.cachingJobs }) ∧
    statusOf (streamRoute s raw now).1 = 500 ∧
    errorFieldOf (streamRoute s raw now).1 = some e ∧
    lookupKey vid (streamRoute s raw now).2.cachingJobs = none ∧
    streamRoute (streamRoute s raw now).2 raw now2
      = (.missStarted,
         { s with cachingJobs := insertKey vid ⟨now2, buildObjectKey vid vid, none⟩ (eraseKey vid s.cachingJobs) }) := by
  have h1 : streamRoute s raw now
      = (.missFailed e, { s with cachingJobs := eraseKey vid s.cachingJobs }) := by
    simp [streamRoute, hparse, hmiss, hjob, herr]
  have h2 : lookupKey vid (eraseKey vid s.cachingJobs) = none :=
    lookupKey_eraseKey_self vid s.cachingJobs hnodup
  refine ⟨h1, by rw [h1]; rfl, by rw [h1]; rfl, ?_, ?_⟩
  · rw [h1]
    exact h2
  · rw [h1]
    simp [streamRoute, hparse, hmiss, h2]

/-- Witness for C3 at a concrete poisoned registry. -/
theorem C3_failed_job_cleared_witness :
    streamRoute ⟨[], [], [("dQw4w9WgXcQ", ⟨1, "audio/k.mp3", some "boom"⟩)], []⟩
        "dQw4w9WgXcQ" 5
      = (.missFailed "boom", ⟨[], [], [], []⟩) ∧
    streamRoute ⟨[], [], [], []⟩ "dQw4w9WgXcQ" 6
      = (.missStarted,
         ⟨[], [], [("dQw4w9WgXcQ", ⟨6, buildObjectKey "dQw4w9WgXcQ" "dQw4w9WgXcQ", none⟩)], []⟩) :=
  have T := C3_failed_job_cleared
    ⟨[], [], [("dQw4w9WgXcQ", ⟨1, "audio/k.mp3", some "boom"⟩)], []⟩
    "dQw4w9WgXcQ" "dQw4w9WgXcQ" 5 6 ⟨1, "audio/k.mp3", some "boom"⟩ "boom"
    (by decide) (by decide) (by decide) (by decide) (by simp [keysNodup])
  ⟨T.1, by
    have h5 := T.2.2.2.2
    rw [T.1] at h5
    simpa using h5⟩

/-! ## Claim C4 -/

theorem step_index_nonmeta (vid k : String) (p : PipelineState) (e : JobEvent)
    (h : isMetadataEvent e = false) :
    (cachePipelineStep vid k p e).gw.tracksIndex = p.gw.tracksIndex := by
  cases e with
  | spawnFailed m => rfl
  | fetchExit code =>
    by_cases hc : code ≠ 0 ∧ p.hasError = false
    · simp [cachePipelineStep, hc]
    · simp [cachePipelineStep, hc]
  | transcodeFailed m =>
    cases hc : hasSub m.data "Output stream closed".data <;>
      simp [cachePipelineStep, hc]
  | metadataOk info t => simp [isMetadataEvent] at h
  | metadataFailed t => simp [isMetadataEvent] at h
  | uploadOk => rfl
  | uploadFailed m => rfl

theorem step_index_meta (vid k : String) (p : PipelineState) (e : JobEvent)
    (h : isMetadataEvent e = true) :
    (lookupKey vid (cachePipelineStep vid k p e).gw.tracksIndex).isSome = true := by
  cases e with
  | metadataOk info t =>
    have : (metadataPayload vid k info t).videoId = vid := rfl
    simp [cachePipelineStep, saveTrackMetadata, metadataPayload,
      lookupKey_insertKey_self]
  | metadataFailed t =>
    simp [cachePipelineStep, saveTrackMetadata, fallbackPayload,
      lookupKey_insertKey_self]
  | spawnFailed m => simp [isMetadataEvent] at h
  | fetchExit code => simp [isMetadataEvent] at h
  | transcodeFailed m => simp [isMetadataEvent] at h
  | uploadOk => simp [isMetadataEvent] at h
  | uploadFailed m => simp [isMetadataEvent] at h

theorem record_after_trace (vid k : String) (p : PipelineState)
    (events : List JobEvent) :
    (lookupKey vid (runCacheJob vid k p events).gw.tracksIndex).isSome
      = ((lookupKey vid p.gw.tracksIndex).isSome || events.any isMetadataEvent) := by
  induction events generalizing p with
  | nil => simp [runCacheJob]
  | cons e es ih =>
    rw [runCacheJob, ih]
    cases hm : isMetadataEvent e with
    | false =>
      rw [step_index_nonmeta vid k p e hm]
      simp [List.any_cons, hm]
    | true =>
      rw [step_index_meta vid k p e hm]
      simp [List.any_cons, hm]

/-- C4 is refuted: the TrackRecord write is not gated on upload
completion.  From a state with a running job, settling the metadata
branch and then failing the upload leaves a TrackRecord in the index even
though the object was never made durable (the store is still empty); and
conversely, completing the upload while the metadata branch is still
pending removes the job entry (Completed) without any TrackRecord having
been written. -/
theorem C4_counterexample :
    (lookupKey "dQw4w9WgXcQ" (runCacheJob "dQw4w9WgXcQ" "audio/k.mp3"
        ⟨⟨[], [], [("dQw4w9WgXcQ", ⟨0, "audio/k.mp3", none⟩)], []⟩, false, false⟩
        [JobEvent.metadataFailed "t1", JobEvent.uploadFailed "boom"]).gw.tracksIndex).isSome
      = true ∧
    (runCacheJob "dQw4w9WgXcQ" "audio/k.mp3"
        ⟨⟨[], [], [("dQw4w9WgXcQ", ⟨0, "audio/k.mp3", none⟩)], []⟩, false, false⟩
        [JobEvent.metadataFailed "t1", JobEvent.uploadFailed "boom"]).gw.store = [] ∧
    (runCacheJob "dQw4w9WgXcQ" "audio/k.mp3"
        ⟨⟨[], [], [("dQw4w9WgXcQ", ⟨0, "audio/k.mp3", none⟩)], []⟩, false, false⟩
        [JobEvent.uploadOk]).gw.cachingJobs = [] ∧
    lookupKey "dQw4w9WgXcQ" (runCacheJob "dQw4w9WgXcQ" "audio/k.mp3"
        ⟨⟨[], [], [("dQw4w9WgXcQ", ⟨0, "audio/k.mp3", none⟩)], []⟩, false, false⟩
        [JobEvent.uploadOk]).gw.tracksIndex = none := by
  refine ⟨by decide, by decide, by decide, by decide⟩

/-- C4 (amended): the TrackRecord for a contentId is written exactly when
the metadata branch settles (success or fallback), independently of the
upload: starting from a state with no record, a record exists after a
trace of job events iff the trace contains a metadata event; reaching
Completed (upload success) removes the job entry and makes the object
durable, but does not itself write the TrackRecord. -/
theorem C4_record_follows_metadata (s : GatewayState) (vid k : String)
    (hasErr killed : Bool) (events : List JobEvent)
    (hno : lookupKey vid s.tracksIndex = none) :
    ((lookupKey vid (runCacheJob vid k ⟨s, hasErr, killed⟩ events).gw.tracksIndex).isSome
      = events.any isMetadataEvent) ∧
    (∀ p : PipelineState,
      (cachePipelineStep vid k p JobEvent.uploadOk).gw.cachingJobs
        = eraseKey vid p.gw.cachingJobs ∧
      (cachePipelineStep vid k p JobEvent.uploadOk).gw.tracksIndex = p.gw.tracksIndex ∧
      k ∈ (cachePipelineStep vid k p JobEvent.uploadOk).gw.store) := by
  constructor
  · rw [record_after_trace]
    simp [hno]
  · intro p
    exact ⟨rfl, rfl, by simp [cachePipelineStep]⟩

/-- Witness for the amended C4 at a concrete trace. -/
theorem C4_record_follows_metadata_witness :
    (lookupKey "dQw4w9WgXcQ" (runCacheJob "dQw4w9WgXcQ" "audio/k.mp3"
        ⟨⟨[], [], [], []⟩, false, false⟩
        [JobEvent.metadataFailed "t1"]).gw.tracksIndex).isSome
      = [JobEvent.metadataFailed "t1"].any isMetadataEvent :=
  (C4_record_follows_metadata ⟨[], [], [], []⟩ "dQw4w9WgXcQ" "audio/k.mp3" false false
    [JobEvent.metadataFailed "t1"] (by decide)).1

/-! ## Claim C5 -/

/-- C5: when the metadata lookup fails but the pipeline succeeds, the job
is not aborted - the fallback TrackRecord is written with
`title = contentId`, `author = "Unknown"`, null duration and null
thumbnail, the object is durable, the job entry is gone, and a subsequent
resolve serves a hit from the job's cache key. -/
theorem C5_metadata_fallback (s : GatewayState) (vid k raw t : String) (now : Nat)
    (hparse : getVideoId raw = some vid)
    (hno : lookupKey vid s.tracksIndex = none)
    (hk : k ≠ "")
    (hnodup : keysNodup s.cachingJobs) :
    lookupKey vid (runCacheJob vid k ⟨s, false, false⟩
        [JobEvent.metadataFailed t, JobEvent.uploadOk]).gw.tracksIndex
      = some ⟨vid, some k, some vid, some "Unknown", some none, some none, some t, some t⟩ ∧
    k ∈ (runCacheJob vid k ⟨s, false, false⟩
        [JobEvent.metadataFailed t, JobEvent.uploadOk]).gw.store ∧
    lookupKey vid (runCacheJob vid k ⟨s, false, false⟩
        [JobEvent.metadataFailed t, JobEvent.uploadOk]).gw.cachingJobs = none ∧
    (streamRoute (runCacheJob vid k ⟨s, false, false⟩
        [JobEvent.metadataFailed t, JobEvent.uploadOk]).gw raw now).1
      = StreamResponse.hitResponse k
          (some ⟨vid, some k, some vid, some "Unknown", some none, some none, some t, some t⟩) := by
  set merged : TrackRecord :=
    ⟨vid, some k, some vid, some "Unknown", some none, some none, some t, some t⟩ with hm
  have hq : runCacheJob vid k ⟨s, false, false⟩
      [JobEvent.metadataFailed t, JobEvent.uploadOk]
      = ⟨⟨k :: s.store, insertKey vid merged s.tracksIndex,
          eraseKey vid s.cachingJobs, s.groups⟩, false, false⟩ := by
    simp [runCacheJob, cachePipelineStep, saveTrackMetadata, fallbackPayload,
      spreadMerge, emptyRecord, hno, hm, Option.orElse]
  have hlook : lookupKey vid (insertKey vid merged s.tracksIndex) = some merged :=
    lookupKey_insertKey_self vid merged s.tracksIndex
  refine ⟨by rw [hq]; exact hlook, by rw [hq]; exact List.mem_cons_self k _, ?_, ?_⟩
  · rw [hq]
    exact lookupKey_eraseKey_self vid s.cachingJobs hnodup
  · rw [hq]
    have hrk : recordKeyOf (insertKey vid merged s.tracksIndex) vid = k := by
      simp [recordKeyOf, hlook, hm]
    have hsl : streamLookup (k :: s.store) (insertKey vid merged s.tracksIndex) vid
        = some k := by
      unfold streamLookup
      rw [hrk, if_pos ⟨hk, List.mem_cons_self k _⟩]
    simp [streamRoute, hparse, hsl, hlook]

/-- Witness for C5 at a concrete state. -/
theorem C5_metadata_fallback_witness :
    lookupKey "dQw4w9WgXcQ" (runCacheJob "dQw4w9WgXcQ" "audio/k.mp3"
        ⟨⟨[], [], [("dQw4w9WgXcQ", ⟨0, "audio/k.mp3", none⟩)], []⟩, false, false⟩
        [JobEvent.metadataFailed "t1", JobEvent.uploadOk]).gw.tracksIndex
      = some ⟨"dQw4w9WgXcQ", some "audio/k.mp3", some "dQw4w9WgXcQ", some "Unknown",
              some none, some none, some "t1", some "t1"⟩ :=
  (C5_metadata_fallback
    ⟨[], [], [("dQw4w9WgXcQ", ⟨0, "audio/k.mp3", none⟩)], []⟩
    "dQw4w9WgXcQ" "audio/k.mp3" "dQw4w9WgXcQ" "t1" 9
    (by decide) (by decide) (by decide) (by simp [keysNodup])).1

/-! ## Claim C6 -/

/-- C6: a transcoder error whose message contains `Output stream closed`
is benign - the handler returns without recording an error or killing the
fetch subprocess, and the job can still reach Completed; any other
transcoder error records `Audio conversion failed: <message>` on the
CacheJob and kills the fetch subprocess. -/
theorem C6_benign_sink_close (vid k msg : String) (p : PipelineState) (job : CacheJob)
    (hjob : lookupKey vid p.gw.cachingJobs = some job)
    (hkill : p.fetchKilled = false)
    (hnodup : keysNodup p.gw.cachingJobs) :
    (hasSub msg.data "Output stream closed".data = true →
      cachePipelineStep vid k p (JobEvent.transcodeFailed msg) = p ∧
      lookupKey vid (runCacheJob vid k p
        [JobEvent.transcodeFailed msg, JobEvent.uploadOk]).gw.cachingJobs = none ∧
      k ∈ (runCacheJob vid k p
        [JobEvent.transcodeFailed msg, JobEvent.uploadOk]).gw.store ∧
      (runCacheJob vid k p
        [JobEvent.transcodeFailed msg, JobEvent.uploadOk]).fetchKilled = false) ∧
    (hasSub msg.data "Output stream closed".data = false →
      lookupKey vid (cachePipelineStep vid k p (JobEvent.transcodeFailed msg)).gw.cachingJobs
        = some { job with error := some ("Audio conversion failed: " ++ msg) } ∧
      (cachePipelineStep vid k p (JobEvent.transcodeFailed msg)).fetchKilled = true) := by
  constructor
  · intro hb
    have hstep : cachePipelineStep vid k p (JobEvent.transcodeFailed msg) = p := by
      simp [cachePipelineStep, hb]
    refine ⟨hstep, ?_, ?_, ?_⟩
    · rw [runCacheJob, hstep, runCacheJob, runCacheJob]
      simp [cachePipelineStep]
      exact lookupKey_eraseKey_self vid p.gw.cachingJobs hnodup
    · rw [runCacheJob, hstep, runCacheJob, runCacheJob]
      simp [cachePipelineStep]
    · rw [runCacheJob, hstep, runCacheJob, runCacheJob]
      simpa [cachePipelineStep] using hkill
  · intro hb
    constructor
    · simp only [cachePipelineStep, hb, Bool.false_eq_true, if_false, setJobError]
      exact lookupKey_updateKey_self vid _ p.gw.cachingJobs job hjob
    · simp [cachePipelineStep, hb]

/-- Witness for C6 with a benign and a fatal message. -/
theorem C6_benign_sink_close_witness :
    cachePipelineStep "dQw4w9WgXcQ" "audio/k.mp3"
      ⟨⟨[], [], [("dQw4w9WgXcQ", ⟨0, "audio/k.mp3", none⟩)], []⟩, false, false⟩
      (JobEvent.transcodeFailed "ffmpeg: Output stream closed")
      = ⟨⟨[], [], [("dQw4w9WgXcQ", ⟨0, "audio/k.mp3", none⟩)], []⟩, false, false⟩ ∧
    (cachePipelineStep "dQw4w9WgXcQ" "audio/k.mp3"
      ⟨⟨[], [], [("dQw4w9WgXcQ", ⟨0, "audio/k.mp3", none⟩)], []⟩, false, false⟩
      (JobEvent.transcodeFailed "codec exploded")).fetchKilled = true :=
  have T := C6_benign_sink_close "dQw4w9WgXcQ" "audio/k.mp3" "ffmpeg: Output stream closed"
    ⟨⟨[], [], [("dQw4w9WgXcQ", ⟨0, "audio/k.mp3", none⟩)], []⟩, false, false⟩
    ⟨0, "audio/k.mp3", none⟩ (by decide) (by decide) (by simp [keysNodup])
  have T2 := C6_benign_sink_close "dQw4w9WgXcQ" "audio/k.mp3" "codec exploded"
    ⟨⟨[], [], [("dQw4w9WgXcQ", ⟨0, "audio/k.mp3", none⟩)], []⟩, false, false⟩
    ⟨0, "audio/k.mp3", none⟩ (by decide) (by decide) (by simp [keysNodup])
  ⟨(T.1 (by decide)).1, (T2.2 (by decide)).2⟩

/-! ## Claim C8 -/

/-- C8 is refuted on the hit case: the stream route of the coordinator
server answers a cache hit with `res.json({cached:true, url:signedUrl,...})`
- a 200 whose body is an `application/json` envelope carrying a signed
URL, not a streamed `audio/mpeg` body. -/
theorem C8_hit_is_json_counterexample :
    statusOf (streamRoute ⟨["audio/dQw4w9WgXcQ.mp3"], [], [], []⟩ "dQw4w9WgXcQ" 0).1
      = 200 ∧
    (streamRoute ⟨["audio/dQw4w9WgXcQ.mp3"], [], [], []⟩ "dQw4w9WgXcQ" 0).1
      = StreamResponse.hitResponse "audio/dQw4w9WgXcQ.mp3" none ∧
    contentTypeOf (streamRoute ⟨["audio/dQw4w9WgXcQ.mp3"], [], [], []⟩ "dQw4w9WgXcQ" 0).1
      = "application/json" ∧
    "application/json" ≠ "audio/mpeg" := by
  refine ⟨by decide, by decide, by decide, by decide⟩

/-- C8 (amended): `GET /stream/:videoId` responds 200 with a JSON body
`{cached:true, url:signedUrl, ...}` when the object is cached, 202 with
`caching:true` when a job was just started or is in progress, 500 with the
stored error when a prior job failed, and 400 when the id is malformed. -/
theorem C8_route_statuses (s : GatewayState) (raw : String) (now : Nat) :
    (getVideoId raw = none →
      streamRoute s raw now = (StreamResponse.badRequest, s) ∧
      statusOf (streamRoute s raw now).1 = 400) ∧
    (∀ vid servedKey, getVideoId raw = some vid →
      streamLookup s.store s.tracksIndex vid = some servedKey →
      (streamRoute s raw now).1
        = StreamResponse.hitResponse servedKey (lookupKey vid s.tracksIndex) ∧
      statusOf (streamRoute s raw now).1 = 200 ∧
      contentTypeOf (streamRoute s raw now).1 = "application/json") ∧
    (∀ vid job e, getVideoId raw = some vid →
      streamLookup s.store s.tracksIndex vid = none →
      lookupKey vid s.cachingJobs = some job → job.error = some e →
      (streamRoute s raw now).1 = StreamResponse.missFailed e ∧
      statusOf (streamRoute s raw now).1 = 500 ∧
      errorFieldOf (streamRoute s raw now).1 = some e) ∧
    (∀ vid, getVideoId raw = some vid →
      streamLookup s.store s.tracksIndex vid = none →
      (∀ job, lookupKey vid s.cachingJobs = some job → job.error = none) →
      statusOf (streamRoute s raw now).1 = 202 ∧
      cachingFlagOf (streamRoute s raw now).1 = some true) := by
  refine ⟨?_, ?_, ?_, ?_⟩
  · intro h
    constructor
    · simp [streamRoute, h]
    · simp [streamRoute, h, statusOf]
  · intro vid servedKey hp hs
    have hr : (streamRoute s raw now).1
        = StreamResponse.hitResponse servedKey (lookupKey vid s.tracksIndex) := by
      simp [streamRoute, hp, hs]
    exact ⟨hr, by rw [hr]; rfl, by rw [hr]; rfl⟩
  · intro vid job e hp hs hj he
    have hr : (streamRoute s raw now).1 = StreamResponse.missFailed e := by
      simp [streamRoute, hp, hs, hj, he]
    exact ⟨hr, by rw [hr]; rfl, by rw [hr]; rfl⟩
  · intro vid hp hs hnoerr
    cases hj : lookupKey vid s.cachingJobs with
    | some job =>
      have hr : (streamRoute s raw now).1 = StreamResponse.missInProgress := by
        simp [streamRoute, hp, hs, hj, hnoerr job hj]
      exact ⟨by rw [hr]; rfl, by rw [hr]; rfl⟩
    | none =>
      have hr : (streamRoute s raw now).1 = StreamResponse.missStarted := by
        simp [streamRoute, hp, hs, hj]
      exact ⟨by rw [hr]; rfl, by rw [hr]; rfl⟩

/-- Witness for the amended C8 at concrete states. -/
theorem C8_route_statuses_witness :
    streamRoute ⟨[], [], [], []⟩ "???" 0 = (StreamResponse.badRequest, ⟨[], [], [], []⟩) ∧
    statusOf (streamRoute ⟨["audio/dQw4w9WgXcQ.mp3"], [], [], []⟩ "dQw4w9WgXcQ" 0).1 = 200 ∧
    statusOf (streamRoute ⟨[], [], [], []⟩ "dQw4w9WgXcQ" 0).1 = 202 :=
  have T1 := C8_route_statuses ⟨[], [], [], []⟩ "???" 0
  have T2 := C8_route_statuses ⟨["audio/dQw4w9WgXcQ.mp3"], [], [], []⟩ "dQw4w9WgXcQ" 0
  have T3 := C8_route_statuses ⟨[], [], [], []⟩ "dQw4w9WgXcQ" 0
  ⟨(T1.1 (by decide)).1,
   (T2.2.1 "dQw4w9WgXcQ" "audio/dQw4w9WgXcQ.mp3" (by decide) (by decide)).2.1,
   (T3.2.2.2 "dQw4w9WgXcQ" (by decide) (by decide) (fun job hj => by simp [lookupKey] at hj)).1⟩

/-! ## Claim C9 -/

theorem filter_ne_length_iff (vid : String) (l : List String) :
    ((l.filter (fun id => id ≠ vid)).length ≠ l.length) ↔ vid ∈ l := by
  induction l with
  | nil => simp
  | cons a t ih =>
    by_cases ha : a = vid
    · subst ha
      have hle : (t.filter (fun id => id ≠ a)).length ≤ t.length :=
        List.length_filter_le _ t
      simp only [List.filter_cons]
      rw [if_neg (by simp)]
      constructor
      · intro _
        exact List.mem_cons_self a t
      · intro _
        simp only [List.length_cons]
        omega
    · simp only [List.filter_cons]
      rw [if_pos (by simp [ha])]
      simp only [List.length_cons, List.mem_cons]
      constructor
      · intro h
        right
        exact ih.mp (by omega)
      · intro h
        rcases h with h | h
        · exact absurd h.symm ha
        · have := ih.mpr h
          omega

/-- C9: `deleteTrack` returns `false` and changes nothing when no record
exists; otherwise it deletes the object under the record's storage key
(a missing object is treated as success - erasing an absent key is a
no-op), removes the record from the index, strips the videoId from the
`trackIds` of exactly the groups that contain it while refreshing their
`updatedAt`, leaves other groups untouched, and returns `true`. -/
theorem C9_deleteTrack_spec (s : GatewayState) (vid now : String) :
    (lookupKey vid s.tracksIndex = none → deleteTrack s vid now = (false, s)) ∧
    (∀ md key, lookupKey vid s.tracksIndex = some md → md.storageKey = some key →
      key ≠ "" → keysNodup s.tracksIndex →
      deleteTrack s vid now
        = (true, ⟨s.store.erase key, eraseKey vid s.tracksIndex, s.cachingJobs,
            s.groups.map (fun g =>
              if vid ∈ g.trackIds then
                { g with trackIds := g.trackIds.filter (fun id => id ≠ vid),
                         updatedAt := now }
              else g)⟩) ∧
      lookupKey vid (deleteTrack s vid now).2.tracksIndex = none) := by
  constructor
  · intro h
    simp [deleteTrack, h]
  · intro md key hmd hkey hne hnodup
    have hfun : (fun g : Group =>
        if (g.trackIds.filter (fun id => id ≠ vid)).length ≠ g.trackIds.length then
          { g with trackIds := g.trackIds.filter (fun id => id ≠ vid), updatedAt := now }
        else g)
      = (fun g : Group =>
        if vid ∈ g.trackIds then
          { g with trackIds := g.trackIds.filter (fun id => id ≠ vid), updatedAt := now }
        else g) := by
      funext g
      exact if_congr (filter_ne_length_iff vid g.trackIds) rfl rfl
    have hd : deleteTrack s vid now
        = (true, ⟨s.store.erase key, eraseKey vid s.tracksIndex, s.cachingJobs,
            s.groups.map (fun g =>
              if vid ∈ g.trackIds then
                { g with trackIds := g.trackIds.filter (fun id => id ≠ vid),
                         updatedAt := now }
              else g)⟩) := by
      simp only [deleteTrack, hmd, hkey, hfun, if_neg hne]
    refine ⟨hd, ?_⟩
    rw [hd]
    exact lookupKey_eraseKey_self vid s.tracksIndex hnodup

/-- Witness for C9: both branches at concrete states. -/
theorem C9_deleteTrack_spec_witness :
    deleteTrack ⟨["audio/k.mp3"], [], [], []⟩ "dQw4w9WgXcQ" "t9"
      = (false, ⟨["audio/k.mp3"], [], [], []⟩) ∧
    deleteTrack
      ⟨["audio/k.mp3"],
       [("dQw4w9WgXcQ", { emptyRecord "dQw4w9WgXcQ" with storageKey := some "audio/k.mp3" })],
       [],
       [⟨"g1", "mix", ["dQw4w9WgXcQ", "otherotherA"], "t0", "t0"⟩]⟩
      "dQw4w9WgXcQ" "t9"
      = (true, ⟨[], [], [], [⟨"g1", "mix", ["otherotherA"], "t0", "t9"⟩]⟩) :=
  have T1 := C9_deleteTrack_spec ⟨["audio/k.mp3"], [], [], []⟩ "dQw4w9WgXcQ" "t9"
  have T2 := C9_deleteTrack_spec
    ⟨["audio/k.mp3"],
     [("dQw4w9WgXcQ", { emptyRecord "dQw4w9WgXcQ" with storageKey := some "audio/k.mp3" })],
     [],
     [⟨"g1", "mix", ["dQw4w9WgXcQ", "otherotherA"], "t0", "t0"⟩]⟩
    "dQw4w9WgXcQ" "t9"
  ⟨T1.1 (by decide),
   by
    have h2 := (T2.2 { emptyRecord "dQw4w9WgXcQ" with storageKey := some "audio/k.mp3" }
      "audio/k.mp3" (by decide) (by decide) (by decide) (by simp [keysNodup])).1
    rw [h2]
    decide⟩

/-! ## Claim C10 -/

/-- C10: `saveTrackMetadata` merges the patch over any existing record of
the same videoId - absent patch fields keep their previous values, an
existing record's `createdAt` is preserved while the supplied `createdAt`
is used only for a fresh record, `updatedAt` is set to the save time, and
every other videoId's record is left unchanged. -/
theorem C10_saveTrackMetadata_merge (index : List (String × TrackRecord))
    (patch : TrackRecord) (now : String) :
    (∀ other, other ≠ patch.videoId →
      lookupKey other (saveTrackMetadata index patch now) = lookupKey other index) ∧
    (∀ ex, lookupKey patch.videoId index = some ex →
      lookupKey patch.videoId (saveTrackMetadata index patch now)
        = some (spreadMerge ex patch now) ∧
      (patch.storageKey = none → (spreadMerge ex patch now).storageKey = ex.storageKey) ∧
      (patch.title = none → (spreadMerge ex patch now).title = ex.title) ∧
      (patch.author = none → (spreadMerge ex patch now).author = ex.author) ∧
      (patch.durationSeconds = none →
        (spreadMerge ex patch now).durationSeconds = ex.durationSeconds) ∧
      (patch.thumbnailUrl = none →
        (spreadMerge ex patch now).thumbnailUrl = ex.thumbnailUrl) ∧
      (∀ c, ex.createdAt = some c → (spreadMerge ex patch now).createdAt = some c) ∧
      (spreadMerge ex patch now).updatedAt = some now) ∧
    (lookupKey patch.videoId index = none →
      lookupKey patch.videoId (saveTrackMetadata index patch now)
        = some (spreadMerge (emptyRecord patch.videoId) patch now) ∧
      (spreadMerge (emptyRecord patch.videoId) patch now).createdAt = patch.createdAt ∧
      (spreadMerge (emptyRecord patch.videoId) patch now).updatedAt = some now) := by
  refine ⟨?_, ?_, ?_⟩
  · intro other hne
    unfold saveTrackMetadata
    exact lookupKey_insertKey_ne _ other _ index hne
  · intro ex hex
    refine ⟨?_, ?_, ?_, ?_, ?_, ?_, ?_, rfl⟩
    · unfold saveTrackMetadata
      rw [hex]
      exact lookupKey_insertKey_self _ _ index
    · intro h
      simp [spreadMerge, h]
    · intro h
      simp [spreadMerge, h]
    · intro h
      simp [spreadMerge, h]
    · intro h
      simp [spreadMerge, h]
    · intro h
      simp [spreadMerge, h]
    · intro c h
      simp [spreadMerge, h]
  · intro hnone
    refine ⟨?_, ?_, rfl⟩
    · unfold saveTrackMetadata
      rw [hnone]
      exact lookupKey_insertKey_self _ _ index
    · rfl

/-- Witness for C10: a merge over an existing record at concrete values. -/
theorem C10_saveTrackMetadata_merge_witness :
    lookupKey "dQw4w9WgXcQ"
      (saveTrackMetadata
        [("dQw4w9WgXcQ", ⟨"dQw4w9WgXcQ", some "audio/k.mp3", some "Old title",
          some "Old author", some (some 100), some none, some "t0", some "t0"⟩)]
        ⟨"dQw4w9WgXcQ", none, some "New title", none, none, none, some "t5", none⟩ "t5")
      = some ⟨"dQw4w9WgXcQ", some "audio/k.mp3", some "New title", some "Old author",
          some (some 100), some none, some "t0", some "t5"⟩ :=
  have T := C10_saveTrackMetadata_merge
    [("dQw4w9WgXcQ", ⟨"dQw4w9WgXcQ", some "audio/k.mp3", some "Old title",
      some "Old author", some (some 100), some none, some "t0", some "t0"⟩)]
    ⟨"dQw4w9WgXcQ", none, some "New title", none, none, none, some "t5", none⟩ "t5"
  by
    have h := (T.2.1 ⟨"dQw4w9WgXcQ", some "audio/k.mp3", some "Old title",
      some "Old author", some (some 100), some none, some "t0", some "t0"⟩ (by decide)).1
    rw [h]
    decide

end KPlayer
